import Mathlib

/-!
Verification development for the theold2api gateway.

Shallow embedding of the dispatch-and-translation pipeline:
the egress proxy pool with health tracking (package proxy), the model and
persona routing caches (handler/models.go and the persona cache), the
request transcoder (message flattening), and the streaming translator and
aggregator for both upstream dialects (the direct chunk stream and the
persona chat-session event stream).

Network transport, JSON wire syntax, timestamps and logging are abstracted:
a stream is a list of already-classified lines, and each embedded function
mirrors the control flow of its Go source line by line.
-/

namespace Theold2api

/-! ### Egress proxy pool (package proxy)

`ProxyStatus` carries the mutable per-path state read and written by
`checkProxy`, `markProxyFailed`, `getNextProxy` and `Do`.  The timestamp
fields (`LastChecked`, `LastUsed`) are write-only in the source and are not
modelled.  `FailCount` is an `int32` that is only ever incremented by one or
reset to zero; it is modelled as a `Nat`.
-/

structure ProxyStatus where
  Healthy : Bool
  FailCount : Nat
deriving DecidableEq

/-- `checkProxy`, success arm: on a successful probe the path is marked
healthy and the failure counter is reset to zero. -/
def checkProxySuccess (_p : ProxyStatus) : ProxyStatus :=
  { Healthy := true, FailCount := 0 }

/-- `checkProxy`, failure arm: the failure counter is incremented and the
path is marked unhealthy once the counter reaches the hardcoded probe
threshold of 3. -/
def checkProxyFailure (p : ProxyStatus) : ProxyStatus :=
  let fc := p.FailCount + 1
  if fc ≥ 3 then { Healthy := false, FailCount := fc }
  else { p with FailCount := fc }

/-- `markProxyFailed`: increment the failure counter; mark unhealthy when it
reaches `cfg.ProxyRetryCount`. -/
def markProxyFailed (proxyRetryCount : Nat) (p : ProxyStatus) : ProxyStatus :=
  let fc := p.FailCount + 1
  if fc ≥ proxyRetryCount then { Healthy := false, FailCount := fc }
  else { p with FailCount := fc }

/-- The effect of one dispatch attempt in `Client.Do` on the state of the
path it was sent through: on `err == nil` the function returns at once and
the `ProxyStatus` is left untouched; on a transport error it calls
`markProxyFailed`. -/
def doAttempt (proxyRetryCount : Nat) (p : ProxyStatus) (success : Bool) : ProxyStatus :=
  if success then p else markProxyFailed proxyRetryCount p

/-- The `currentIdx` round-robin cursor is a `uint32`; `atomic.AddUint32`
wraps at `2 ^ 32`. -/
def uint32Mod : Nat := 4294967296

/-- The selection loop of `getNextProxy`, given the health flags of the
pool (`hs`) and the already-incremented cursor value (`startIdx`): scan
`i = 0 .. len-1`, pick the first index `(startIdx + i) % len` whose path is
healthy; if every path is unhealthy fall back to the first path (index 0).
The `len(c.proxies) == 0` direct-client case is handled by the caller and
assumed away here (the loop is only reached with a non-empty pool). -/
def selectProxy (hs : List Bool) (startIdx : Nat) : Nat :=
  match (List.range hs.length).find? (fun i => hs.getD ((startIdx + i) % hs.length) false) with
  | some i => (startIdx + i) % hs.length
  | none => 0

/-- The indices chosen by `m` consecutive `getNextProxy` calls starting from
cursor value `c0`, with no intervening health mutations: call `k`
(1-based) first advances the cursor to `(c0 + k) % 2 ^ 32` and then runs
the selection loop. -/
def selectionList (hs : List Bool) (c0 : Nat) (m : Nat) : List Nat :=
  (List.range m).map (fun i => selectProxy hs ((c0 + i + 1) % uint32Mod))

/-! ### Client-facing message model (handler types)

`MessageContent` is the tagged union behind the polymorphic `content` field:
either a plain string or a list of content parts.
-/

structure ImageURL where
  URL : String
  Detail : String
deriving DecidableEq

structure ContentPart where
  type : String
  Text : String
  ImageURL : Option ImageURL
deriving DecidableEq

structure MessageContent where
  Text : String
  Parts : List ContentPart
  IsMultiPart : Bool
deriving DecidableEq

/-- `strings.Join(parts, sep)`. -/
def goStringsJoin (sep : String) : List String → String
  | [] => ""
  | [s] => s
  | s :: rest => s ++ sep ++ goStringsJoin sep rest

/-- `MessageContent.GetTextContent`: a plain string is returned as is; for
multi-part content the texts of the parts with `Type == "text"` are joined
with `"\n"`. -/
def MessageContent.GetTextContent (mc : MessageContent) : String :=
  if !mc.IsMultiPart then mc.Text
  else goStringsJoin "\n" ((mc.Parts.filter (fun part => part.type == "text")).map ContentPart.Text)

structure Message where
  Role : String
  Content : MessageContent
  ReasoningContent : String
deriving DecidableEq

/-- The per-message segments built by `ConvertMessagesToSingleMessage`:
system, user and assistant messages become role-prefixed segments; any
other role is skipped. -/
def convertMessagesParts : List Message → List String
  | [] => []
  | msg :: rest =>
    let textContent := msg.Content.GetTextContent
    if msg.Role == "system" then ("[System]: " ++ textContent) :: convertMessagesParts rest
    else if msg.Role == "user" then ("[User]: " ++ textContent) :: convertMessagesParts rest
    else if msg.Role == "assistant" then ("[Assistant]: " ++ textContent) :: convertMessagesParts rest
    else convertMessagesParts rest

/-- `ConvertMessagesToSingleMessage`: flattens the message history into one
string, joining the role-prefixed segments with a blank line. -/
def ConvertMessagesToSingleMessage (messages : List Message) : String :=
  goStringsJoin "\n\n" (convertMessagesParts messages)

/-! ### Chat-session event stream (HandleChatSessionStream)

A `ChatSessionStreamEvent` is one decoded line of the persona session
stream.  `FinalDocuments` (`interface\x7b\x7d`, never read by the handler) is not
modelled.  The constant metadata of every emitted OpenAI chunk
(`id`, `object`, `created`, `model`) is the same for the whole exchange and
is elided; `SSEOut` keeps exactly the parts the handler varies.
-/

structure EventPlacement where
  TurnIndex : Int
  TabIndex : Int
  SubTurnIndex : Option Int
deriving DecidableEq

structure EventObj where
  type : String
  Content : String
  StopReason : String
deriving DecidableEq

structure ChatSessionStreamEvent where
  Placement : EventPlacement
  Obj : EventObj
deriving DecidableEq

/-- One SSE write made by `HandleChatSessionStream` in streaming mode. -/
inductive SSEOut where
  /-- the `message_start` chunk carrying only `delta.role = "assistant"` -/
  | roleChunk
  /-- a `message_delta` chunk carrying `delta.content` -/
  | contentChunk (content : String)
  /-- the terminal chunk carrying a non-null `finish_reason` -/
  | finishChunk (finishReason : String)
  /-- the literal `data: [DONE]` line -/
  | doneMarker
deriving DecidableEq

def SSEOut.isFinishChunk : SSEOut → Bool
  | .finishChunk _ => true
  | _ => false

def SSEOut.isDoneMarker : SSEOut → Bool
  | .doneMarker => true
  | _ => false

def SSEOut.isContentChunk : SSEOut → Bool
  | .contentChunk _ => true
  | _ => false

/-- The loop state of `HandleChatSessionStream`: the `firstChunk` handshake
flag, the `contentBuilder` accumulator, the chunk counter, and everything
written to the client so far, in order. -/
structure SessionState where
  firstChunk : Bool
  content : String
  chunkCount : Nat
  outputs : List SSEOut
deriving DecidableEq

/-- The event `switch` of `HandleChatSessionStream`: `message_start` emits a
role-only delta, `message_delta` appends to the accumulator and emits a
content delta, `stop` emits the terminal delta (finish reason `"stop"`)
followed by the `[DONE]` marker, and any other event type is skipped.
Client writes happen only when `stream` is set. -/
def handleSessionEvent (stream : Bool) (st : SessionState) (ev : ChatSessionStreamEvent) :
    SessionState :=
  if ev.Obj.type == "message_start" then
    { st with outputs := st.outputs ++ (if stream then [SSEOut.roleChunk] else []) }
  else if ev.Obj.type == "message_delta" then
    { st with
      content := st.content ++ ev.Obj.Content
      chunkCount := st.chunkCount + 1
      outputs := st.outputs ++ (if stream then [SSEOut.contentChunk ev.Obj.Content] else []) }
  else if ev.Obj.type == "stop" then
    { st with
      outputs := st.outputs ++
        (if stream then [SSEOut.finishChunk "stop", SSEOut.doneMarker] else []) }
  else st

/-- One line of the session response body as the scanner classifies it.
A line that is a JSON object decodes both as the handshake ack
(`SendMessageResponse`, unknown fields ignored) and as a
`ChatSessionStreamEvent`, so it is represented by the event it decodes to;
a line that is not valid JSON fails both decodings. -/
inductive SessionLine where
  | blank
  | objLine (ev : ChatSessionStreamEvent)
  | badLine
deriving DecidableEq

/-- The body of the scanner loop of `HandleChatSessionStream`: blank lines
are skipped; while `firstChunk` is set, a line that decodes as a JSON
object is consumed as the handshake ack with no output, and a line that
fails to decode merely clears `firstChunk` and is then skipped by the event
decoder; afterwards each object line is handled as an event. -/
def processSessionLine (stream : Bool) (st : SessionState) (l : SessionLine) : SessionState :=
  match l with
  | .blank => st
  | .badLine => if st.firstChunk then { st with firstChunk := false } else st
  | .objLine ev =>
    if st.firstChunk then { st with firstChunk := false }
    else handleSessionEvent stream st ev

def initialSessionState : SessionState :=
  { firstChunk := true, content := "", chunkCount := 0, outputs := [] }

/-- `HandleChatSessionStream` restricted to its observable loop behaviour:
fold the scanner loop over the classified lines of the upstream body. -/
def runChatSessionStream (stream : Bool) (lines : List SessionLine) : SessionState :=
  lines.foldl (processSessionLine stream) initialSessionState

/-- The state in which the event-processing phase starts, right after the
handshake line has been consumed. -/
def postHandshakeState : SessionState :=
  { firstChunk := false, content := "", chunkCount := 0, outputs := [] }

/-- The SSE writes caused by a single event (streaming mode emission table
of `handleSessionEvent`). -/
def eventEmits (stream : Bool) (ev : ChatSessionStreamEvent) : List SSEOut :=
  if ev.Obj.type == "message_start" then (if stream then [SSEOut.roleChunk] else [])
  else if ev.Obj.type == "message_delta" then
    (if stream then [SSEOut.contentChunk ev.Obj.Content] else [])
  else if ev.Obj.type == "stop" then
    (if stream then [SSEOut.finishChunk "stop", SSEOut.doneMarker] else [])
  else []

/-! ### Direct-dialect chunk stream and the non-streaming aggregator

Types mirror the Go wire structs (`Usage`, `Delta`, `Choice`, `StreamChunk`,
`ChatCompletionResponse`).
-/

structure CompletionTokensDetails where
  ReasoningTokens : Int
deriving DecidableEq

structure Usage where
  PromptTokens : Int
  CompletionTokens : Int
  TotalTokens : Int
  CompletionTokensDetails : Option CompletionTokensDetails
deriving DecidableEq

structure Delta where
  Role : String
  Content : String
  ReasoningContent : String
deriving DecidableEq

structure Choice where
  Index : Int
  Delta : Delta
  FinishReason : Option String
deriving DecidableEq

structure StreamChunk where
  ID : String
  Model : String
  Choices : List Choice
  Usage : Option Usage
deriving DecidableEq

structure ChatCompletionChoice where
  Index : Int
  Message : Message
  FinishReason : String
deriving DecidableEq

structure ChatCompletionResponse where
  ID : String
  Object : String
  Created : Int
  Model : String
  Choices : List ChatCompletionChoice
  Usage : Option Usage
deriving DecidableEq

/-- One line of a direct-dialect upstream body, as the scanner loop of
`handleNonStreamResponse` classifies it: empty, the `data: [DONE]`
sentinel, a line that (after stripping an optional `data: ` prefix) decodes
as a `StreamChunk`, or a line that fails to decode. -/
inductive StreamLine where
  | blank
  | doneLine
  | chunkLine (c : StreamChunk)
  | malformedLine
deriving DecidableEq

/-- The accumulator variables of `handleNonStreamResponse`
(`id`, `model`, `content`, `reasoningContent`, `finishReason`, `usage`,
`chunkCount`). -/
structure AggState where
  id : String
  model : String
  content : String
  reasoningContent : String
  finishReason : String
  usage : Option Usage
  chunkCount : Nat
deriving DecidableEq

def initialAggState : AggState :=
  { id := "", model := "", content := "", reasoningContent := "",
    finishReason := "", usage := none, chunkCount := 0 }

/-- The inner `for _, choice := range chunk.Choices` body: append the
content and reasoning-content deltas and overwrite the finish reason when
the chunk carries a non-null one. -/
def aggChoice (st : AggState) (ch : Choice) : AggState :=
  { st with
    content := st.content ++ ch.Delta.Content
    reasoningContent := st.reasoningContent ++ ch.Delta.ReasoningContent
    finishReason := match ch.FinishReason with
      | some fr => fr
      | none => st.finishReason }

/-- Processing of one decoded chunk: retain the first non-empty id and
model, fold the choices, overwrite the usage when non-null, count the
chunk. -/
def aggChunk (st : AggState) (c : StreamChunk) : AggState :=
  let st1 := { st with
    id := if st.id == "" then c.ID else st.id
    model := if st.model == "" then c.Model else st.model }
  let st2 := c.Choices.foldl aggChoice st1
  { st2 with
    usage := match c.Usage with
      | some u => some u
      | none => st2.usage
    chunkCount := st2.chunkCount + 1 }

/-- The scanner loop body: blank lines and the end sentinel are skipped
structurally, malformed lines are skipped without touching the state, and
chunk lines are accumulated. -/
def aggLine (st : AggState) (l : StreamLine) : AggState :=
  match l with
  | .blank => st
  | .doneLine => st
  | .malformedLine => st
  | .chunkLine c => aggChunk st c

def aggregateLines (lines : List StreamLine) : AggState :=
  lines.foldl aggLine initialAggState

/-- The assembled assistant message: plain-string content; the reasoning
content is attached only when non-empty. -/
def buildNonStreamMessage (st : AggState) : Message :=
  let msg : Message :=
    { Role := "assistant"
      Content := { Text := st.content, Parts := [], IsMultiPart := false }
      ReasoningContent := "" }
  if st.reasoningContent.length > 0 then { msg with ReasoningContent := st.reasoningContent }
  else msg

/-- The single assembled `ChatCompletionResponse` emitted once the upstream
body closes. -/
def buildNonStreamResponse (st : AggState) (now : Int) : ChatCompletionResponse :=
  { ID := st.id, Object := "chat.completion", Created := now, Model := st.model,
    Choices := [{ Index := 0, Message := buildNonStreamMessage st, FinishReason := st.finishReason }],
    Usage := st.usage }

/-- What `handleNonStreamResponse` ultimately writes to the client: either
one JSON response with an HTTP status, or the `writeError` envelope. -/
inductive HttpResult where
  | ok (status : Nat) (response : ChatCompletionResponse)
  | err (status : Nat) (message : String) (errType : String)
deriving DecidableEq

/-- `handleNonStreamResponse`: consume the upstream body; a hard read error
on the body (`scanner.Err() != nil`) aborts with a 502 `server_error`;
otherwise the aggregated response is written with HTTP 200, even when no
content was received. -/
def handleNonStreamResponse (lines : List StreamLine) (readErr : Bool) (now : Int) :
    HttpResult :=
  if readErr then HttpResult.err 502 "Failed to read upstream response" "server_error"
  else HttpResult.ok 200 (buildNonStreamResponse (aggregateLines lines) now)

/-! ### Model registry and persona routing cache

`Model` mirrors the handler's `Model` struct (wire fields plus the internal
`APIProvider` / `Category` / `PersonaID` routing metadata).  The caches are
modelled by the immutable generation they hold: a list of models and a list
of personas.
-/

structure Model where
  ID : String
  Object : String
  Created : Int
  OwnedBy : String
  APIProvider : String
  Category : String
  PersonaID : Int
deriving DecidableEq

structure Persona where
  ID : Int
  Name : String
  Description : String
  LLMModelProviderOverride : String
  LLMModelVersionOverride : String
  IsPublic : Bool
deriving DecidableEq

def getDefaultModels : List Model := []

/-- `ModelsCache.GetModel` / `GetModelByID`: linear scan for the first model
with the given id; an empty cache holds the (empty) default model set. -/
def GetModelByID (registry : List Model) (id : String) : Option Model :=
  registry.find? (fun m => m.ID == id)

/-- `PersonaCache.refresh` builds `modelToPersona` by iterating over the
personas and inserting every persona with a non-empty
`LLMModelVersionOverride` under that override, later entries overwriting
earlier ones; `GetPersonaForModel` is thus the last persona whose non-empty
override equals the model id. -/
def GetPersonaForModel (personas : List Persona) (model : String) : Option Persona :=
  (personas.filter
    (fun p => !(p.LLMModelVersionOverride == "") && p.LLMModelVersionOverride == model)).getLast?

/-- Routing decision taken by `ChatCompletions`: the persona chat-session
flow with a resolved persona id, or the direct proxy flow. -/
inductive RouteDecision where
  | session (personaID : Int)
  | direct
deriving DecidableEq

/-- The routing prefix of `ChatCompletions`: only a registry entry with
category `"AO"` selects the chat-session flow, and only when a persona id
is resolved — from the model entry's `PersonaID` when non-zero, otherwise
from the persona cache; in every other case (unknown model, non-`"AO"`
category, or no resolvable persona id) the request falls through to the
direct proxy flow. -/
def chatCompletionsRoute (registry : List Model) (personas : List Persona)
    (modelID : String) : RouteDecision :=
  let model := GetModelByID registry modelID
  let useChatSession : Bool :=
    match model with
    | some m => m.Category == "AO"
    | none => false
  if useChatSession then
    let personaID : Int :=
      match model with
      | some m =>
        if m.PersonaID ≠ 0 then m.PersonaID
        else
          match GetPersonaForModel personas modelID with
          | some p => p.ID
          | none => 0
      | none => 0
    if personaID ≠ 0 then RouteDecision.session personaID else RouteDecision.direct
  else RouteDecision.direct

/-- The `shouldSendAuth` flag of `setUpstreamHeaders`: start true, cleared
only for a resolved model whose category is `"kO"` or `"CO"`. -/
def shouldSendAuth (model : Option Model) : Bool :=
  match model with
  | some m => if m.Category == "kO" || m.Category == "CO" then false else true
  | none => true

/-- Whether `setUpstreamHeaders` attaches the `apikey` and `Authorization`
headers: `shouldSendAuth && apiKey != ""`. -/
def setUpstreamHeadersAttachesAuth (model : Option Model) (apiKey : String) : Bool :=
  shouldSendAuth model && !(apiKey == "")

/-- `PersonaCache.getModels`: derive the unique override-model identifiers
from the cached personas, in first-occurrence order, skipping personas with
no override; `seen` is the dedup set. -/
def personaGetModelsAux (now : Int) : List Persona → List String → List Model
  | [], _ => []
  | p :: rest, seen =>
    if p.LLMModelVersionOverride == "" then personaGetModelsAux now rest seen
    else if seen.contains p.LLMModelVersionOverride then personaGetModelsAux now rest seen
    else
      { ID := p.LLMModelVersionOverride, Object := "model", Created := now,
        OwnedBy := p.LLMModelProviderOverride, APIProvider := "", Category := "",
        PersonaID := 0 }
        :: personaGetModelsAux now rest (p.LLMModelVersionOverride :: seen)

def personaGetModels (personas : List Persona) (now : Int) : List Model :=
  personaGetModelsAux now personas []

/-- `ModelsCache.refresh`: a successful load of `models.json` replaces the
generation; a failed load keeps a non-empty previous generation, and with
nothing loaded yet falls back to the persona-derived models (possibly
empty). -/
def modelsCacheRefresh (loadResult : Option (List Model)) (existing : List Model)
    (personas : List Persona) (now : Int) : List Model :=
  match loadResult with
  | some ms => ms
  | none =>
    if existing.length > 0 then existing
    else
      let personaModels := personaGetModels personas now
      if personaModels.length > 0 then personaModels else []

/-- `ModelsCache.GetModels` (served by `GET /v1/models`): the cached
generation, or the empty default model set when the cache is empty. -/
def modelsCacheGetModels (cached : List Model) : List Model :=
  if cached.length = 0 then getDefaultModels else cached

/-! ### Specification-side helpers

Pure functions used to state the specified properties (concatenation in
arrival order, first non-empty value, last value seen), and concrete
fixture events used by closed instances.
-/

/-- Concatenation of a list of strings in order. -/
def concatList : List String → String
  | [] => ""
  | s :: rest => s ++ concatList rest

/-- The last element of a list, or a default when the list is empty. -/
def lastOr {α : Type} (dflt : α) : List α → α
  | [] => dflt
  | x :: rest => lastOr x rest

/-- The first non-empty string of a list, or `""` when there is none. -/
def firstNonEmptyString (l : List String) : String :=
  (l.find? (fun s => !(s == ""))).getD ""

/-- The chunks successfully decoded from a direct-dialect body, in arrival
order. -/
def chunksOfLines (lines : List StreamLine) : List StreamChunk :=
  lines.filterMap (fun l =>
    match l with
    | .chunkLine c => some c
    | _ => none)

/-- The content delta a single chunk contributes (all its choices, in
order). -/
def chunkContentText (c : StreamChunk) : String :=
  concatList (c.Choices.map (fun ch => ch.Delta.Content))

/-- The reasoning-content delta a single chunk contributes. -/
def chunkReasoningText (c : StreamChunk) : String :=
  concatList (c.Choices.map (fun ch => ch.Delta.ReasoningContent))

/-- The non-null finish reasons a single chunk carries, in choice order. -/
def chunkFinishReasons (c : StreamChunk) : List String :=
  c.Choices.filterMap Choice.FinishReason

/-- All non-null finish reasons of a body, in arrival order. -/
def finishReasonsOfLines (lines : List StreamLine) : List String :=
  ((chunksOfLines lines).map chunkFinishReasons).flatten

/-- All non-null usage objects of a body, in arrival order. -/
def usagesOfLines (lines : List StreamLine) : List Usage :=
  (chunksOfLines lines).filterMap StreamChunk.Usage

/-- The role prefix `ConvertMessagesToSingleMessage` puts before a
segment. -/
def roleTagOf (role : String) : String :=
  if role == "system" then "[System]: "
  else if role == "user" then "[User]: "
  else "[Assistant]: "

/-- A fixture placement (the handler never reads placements). -/
def fixturePlacement : EventPlacement :=
  { TurnIndex := 0, TabIndex := 0, SubTurnIndex := none }

/-- The handshake-ack line `\x7buser_message_id, reserved_assistant_message_id\x7d`
viewed as the (content-free) event it would decode to. -/
def ackEvent : ChatSessionStreamEvent :=
  { Placement := fixturePlacement, Obj := { type := "", Content := "", StopReason := "" } }

/-- A `stop` event. -/
def stopEvent : ChatSessionStreamEvent :=
  { Placement := fixturePlacement,
    Obj := { type := "stop", Content := "", StopReason := "stop" } }

/-- A `message_delta` event carrying the given content. -/
def deltaEvent (content : String) : ChatSessionStreamEvent :=
  { Placement := fixturePlacement,
    Obj := { type := "message_delta", Content := content, StopReason := "" } }

/-- A text content part with the given text. -/
def textPart (text : String) : ContentPart :=
  { type := "text", Text := text, ImageURL := none }

/-- A fixture multi-part content holding two text parts. -/
def fixtureParts : List ContentPart := [textPart "Hello", textPart "World"]

/-- A fixture user message whose content is the two-text-part array. -/
def fixtureUserMessage : Message :=
  { Role := "user",
    Content := { Text := "", Parts := fixtureParts, IsMultiPart := true },
    ReasoningContent := "" }

/-! ### General helper lemmas -/

theorem concatList_append (l1 l2 : List String) :
    concatList (l1 ++ l2) = concatList l1 ++ concatList l2 := by
  induction l1 with
  | nil => simp [concatList, String.empty_append]
  | cons s rest ih => simp [concatList, ih, String.append_assoc]

theorem lastOr_append {α : Type} (d : α) (l1 l2 : List α) :
    lastOr d (l1 ++ l2) = lastOr (lastOr d l1) l2 := by
  induction l1 generalizing d with
  | nil => rfl
  | cons x rest ih => simp [lastOr, ih]

/-- A dispatch success in `Client.Do` never mutates the path state. -/
theorem markProxyFailed_le (r : Nat) (p : ProxyStatus) :
    p.FailCount ≤ (markProxyFailed r p).FailCount := by
  unfold markProxyFailed
  dsimp only
  split <;> exact Nat.le_succ _

/-! ### Claim C2 -/

/-- Claim C2, counterexample: a successful dispatched request through a
path with a non-zero failure counter leaves the counter and the health
flag untouched — `Client.Do` performs no success-side reset, so after a
dispatch that returns without transport error the failure counter need not
be zero and the path need not be healthy. -/
theorem dispatch_success_no_reset_cex :
    doAttempt 3 { Healthy := false, FailCount := 3 } true
        = { Healthy := false, FailCount := 3 }
    ∧ ¬((doAttempt 3 { Healthy := false, FailCount := 3 } true).FailCount = 0
        ∧ (doAttempt 3 { Healthy := false, FailCount := 3 } true).Healthy = true) := by
  decide

/-- Claim C2 (amended): only a successful health probe (`checkProxy`)
resets the failure counter to zero and marks the path healthy; a
successful dispatched request leaves the path state unchanged, and over
any sequence of dispatch attempts the failure counter is monotone
nondecreasing. -/
theorem success_reset_only_by_probe (p : ProxyStatus) (r : Nat) (outcomes : List Bool) :
    checkProxySuccess p = { Healthy := true, FailCount := 0 }
    ∧ doAttempt r p true = p
    ∧ p.FailCount ≤ (outcomes.foldl (doAttempt r) p).FailCount := by
  refine ⟨rfl, rfl, ?_⟩
  induction outcomes generalizing p with
  | nil => exact Nat.le_refl _
  | cons b rest ih =>
    refine Nat.le_trans ?_ (ih (doAttempt r p b))
    cases b with
    | true => exact Nat.le_refl _
    | false => exact markProxyFailed_le r p

/-! ### Claim C6 -/

/-- Claim C6: with the (always non-empty) upstream key, `setUpstreamHeaders`
attaches the `apikey` and `Authorization` headers exactly when the resolved
model's category is neither `"kO"` nor `"CO"`; in particular an unresolved
model receives the credentials. -/
theorem upstream_auth_iff_category (model : Option Model) (apiKey : String)
    (hkey : apiKey ≠ "") :
    (setUpstreamHeadersAttachesAuth model apiKey = true
      ↔ ∀ m, model = some m → (m.Category ≠ "kO" ∧ m.Category ≠ "CO"))
    ∧ setUpstreamHeadersAttachesAuth none apiKey = true := by
  constructor
  · cases model with
    | none => simp [setUpstreamHeadersAttachesAuth, shouldSendAuth, hkey]
    | some m =>
      by_cases hk : m.Category = "kO" <;> by_cases hc : m.Category = "CO" <;>
        simp [setUpstreamHeadersAttachesAuth, shouldSendAuth, hk, hc, hkey]
  · simp [setUpstreamHeadersAttachesAuth, shouldSendAuth, hkey]

/-- Claim C6, closed instance. -/
theorem upstream_auth_iff_category_witness :
    (setUpstreamHeadersAttachesAuth none "sk-upstream" = true
      ↔ ∀ m, (none : Option Model) = some m → (m.Category ≠ "kO" ∧ m.Category ≠ "CO"))
    ∧ setUpstreamHeadersAttachesAuth none "sk-upstream" = true :=
  upstream_auth_iff_category none "sk-upstream" (by decide)

/-! ### Claim C4 -/

/-- Claim C4: a chat-completions request whose model is not in the registry,
or whose model is `"AO"`-category (session-routed) but for which neither the
model entry nor the persona cache yields a persona id, is routed to the
direct proxy flow — the routing step produces no error. -/
theorem unknown_model_routes_direct (registry : List Model) (personas : List Persona)
    (modelID : String)
    (h : GetModelByID registry modelID = none
      ∨ ∃ m, GetModelByID registry modelID = some m ∧ m.Category = "AO"
          ∧ m.PersonaID = 0 ∧ GetPersonaForModel personas modelID = none) :
    chatCompletionsRoute registry personas modelID = RouteDecision.direct := by
  unfold chatCompletionsRoute
  rcases h with h | ⟨m, hm, hcat, hpid, hper⟩
  · simp [h]
  · simp [hm, hcat, hpid, hper]

/-- Claim C4, closed instance: an unknown model with empty caches routes
direct. -/
theorem unknown_model_routes_direct_witness :
    chatCompletionsRoute [] [] "no-such-model" = RouteDecision.direct :=
  unknown_model_routes_direct [] [] "no-such-model" (Or.inl rfl)

/-! ### Claim C7 -/

/-- The `seen` set of `PersonaCache.getModels` makes the derived model ids
unique, and no derived id is already in `seen`. -/
theorem personaGetModelsAux_ids (now : Int) (personas : List Persona) (seen : List String) :
    ((personaGetModelsAux now personas seen).map Model.ID).Nodup
    ∧ ∀ s ∈ (personaGetModelsAux now personas seen).map Model.ID, s ∉ seen := by
  induction personas generalizing seen with
  | nil => simp [personaGetModelsAux]
  | cons p rest ih =>
    by_cases h1 : p.LLMModelVersionOverride = ""
    · have hred : personaGetModelsAux now (p :: rest) seen
          = personaGetModelsAux now rest seen := by
        simp [personaGetModelsAux, h1]
      rw [hred]; exact ih seen
    · by_cases h2 : p.LLMModelVersionOverride ∈ seen
      · have hred : personaGetModelsAux now (p :: rest) seen
            = personaGetModelsAux now rest seen := by
          simp [personaGetModelsAux, h1, h2]
        rw [hred]; exact ih seen
      · have hred : personaGetModelsAux now (p :: rest) seen
            = { ID := p.LLMModelVersionOverride, Object := "model", Created := now,
                OwnedBy := p.LLMModelProviderOverride, APIProvider := "", Category := "",
                PersonaID := 0 }
              :: personaGetModelsAux now rest (p.LLMModelVersionOverride :: seen) := by
          simp [personaGetModelsAux, h1, h2]
        have ihc := ih (p.LLMModelVersionOverride :: seen)
        rw [hred, List.map_cons, List.nodup_cons]
        refine ⟨⟨fun hmem => (ihc.2 _ hmem) (List.mem_cons_self _ _), ihc.1⟩, ?_⟩
        intro s hs
        rw [List.mem_cons] at hs
        rcases hs with rfl | hs
        · exact h2
        · exact fun hseen => (ihc.2 s hs) (List.mem_cons_of_mem _ hseen)

/-- Claim C7: when the model registry has never successfully loaded, the
served model list is derived from the persona cache (unique override-model
identifiers); with an empty persona cache too the served list is empty
rather than an error; and with exactly one persona overriding model
`"m1"` under provider `"acme"`, `GET /v1/models` serves exactly one model
with id `"m1"` and owned_by `"acme"`. -/
theorem listmodels_persona_fallback (personas : List Persona) (now : Int) :
    modelsCacheGetModels (modelsCacheRefresh none [] personas now)
        = personaGetModels personas now
    ∧ ((personaGetModels personas now).map Model.ID).Nodup
    ∧ modelsCacheGetModels (modelsCacheRefresh none [] [] now) = []
    ∧ modelsCacheGetModels (modelsCacheRefresh none []
        [{ ID := 1, Name := "persona-one", Description := "",
           LLMModelProviderOverride := "acme", LLMModelVersionOverride := "m1",
           IsPublic := true }] now)
      = [{ ID := "m1", Object := "model", Created := now, OwnedBy := "acme",
           APIProvider := "", Category := "", PersonaID := 0 }] := by
  refine ⟨?_, (personaGetModelsAux_ids now personas []).1, rfl, rfl⟩
  unfold modelsCacheRefresh modelsCacheGetModels getDefaultModels
  by_cases h : (personaGetModels personas now).length > 0
  · have hne : (personaGetModels personas now).length ≠ 0 := by omega
    simp [h, hne]
  · have h0 : (personaGetModels personas now).length = 0 := by omega
    have he : personaGetModels personas now = [] := List.length_eq_zero.mp h0
    simp [h, h0, he]

/-! ### Claim C8 -/

/-- For a history of system/user/assistant messages, the segment list built
by `ConvertMessagesToSingleMessage` is exactly one role-tagged segment per
message, in order. -/
theorem convertMessagesParts_spec (messages : List Message)
    (hroles : ∀ m ∈ messages,
      m.Role = "system" ∨ m.Role = "user" ∨ m.Role = "assistant") :
    convertMessagesParts messages
      = messages.map (fun m => roleTagOf m.Role ++ m.Content.GetTextContent) := by
  induction messages with
  | nil => rfl
  | cons m rest ih =>
    have hrest : ∀ x ∈ rest, x.Role = "system" ∨ x.Role = "user" ∨ x.Role = "assistant" :=
      fun x hx => hroles x (List.mem_cons_of_mem _ hx)
    rcases hroles m (List.mem_cons_self _ _) with h | h | h <;>
      simp [convertMessagesParts, roleTagOf, h, ih hrest]

/-- Claim C8: a session-routed history of system/user/assistant messages is
flattened into one string of role-prefixed segments joined by blank lines,
and a multi-part message containing only text parts flattens to its text
parts joined by the configured `"\n"` separator, in original order. -/
theorem flatten_history_spec (messages : List Message) (parts : List ContentPart)
    (hroles : ∀ m ∈ messages,
      m.Role = "system" ∨ m.Role = "user" ∨ m.Role = "assistant")
    (hparts : ∀ p ∈ parts, p.type = "text") :
    ConvertMessagesToSingleMessage messages
      = goStringsJoin "\n\n"
          (messages.map (fun m => roleTagOf m.Role ++ m.Content.GetTextContent))
    ∧ MessageContent.GetTextContent { Text := "", Parts := parts, IsMultiPart := true }
      = goStringsJoin "\n" (parts.map ContentPart.Text) := by
  constructor
  · unfold ConvertMessagesToSingleMessage
    rw [convertMessagesParts_spec messages hroles]
  · unfold MessageContent.GetTextContent
    have hfil : parts.filter (fun part => part.type == "text") = parts :=
      List.filter_eq_self.mpr (fun p hp => by simp [hparts p hp])
    simp [hfil]

/-- Claim C8, closed instance: a one-message history whose user message has
two text parts flattens to the parts joined by `"\n"`, prefixed by the
user tag. -/
theorem flatten_history_spec_witness :
    ConvertMessagesToSingleMessage [fixtureUserMessage]
      = goStringsJoin "\n\n"
          ([fixtureUserMessage].map (fun m => roleTagOf m.Role ++ m.Content.GetTextContent))
    ∧ MessageContent.GetTextContent
        { Text := "", Parts := fixtureParts, IsMultiPart := true }
      = goStringsJoin "\n" (fixtureParts.map ContentPart.Text) :=
  flatten_history_spec _ _ (by decide) (by decide)

/-! ### Claim C3 -/

/-- The choice loop of `handleNonStreamResponse`, in closed form. -/
theorem aggChoice_foldl_spec (chs : List Choice) (st : AggState) :
    chs.foldl aggChoice st
      = { st with
          content := st.content ++ concatList (chs.map (fun ch => ch.Delta.Content))
          reasoningContent :=
            st.reasoningContent ++ concatList (chs.map (fun ch => ch.Delta.ReasoningContent))
          finishReason := lastOr st.finishReason (chs.filterMap Choice.FinishReason) } := by
  induction chs generalizing st with
  | nil => simp [concatList, lastOr, String.append_empty]
  | cons ch rest ih =>
    rw [List.foldl_cons, ih]
    cases h : ch.FinishReason with
    | some fr =>
      simp [aggChoice, h, concatList, lastOr, String.append_assoc, List.filterMap_cons]
    | none =>
      simp [aggChoice, h, concatList, lastOr, String.append_assoc, List.filterMap_cons]

/-- One chunk of `handleNonStreamResponse`, in closed form. -/
theorem aggChunk_spec (st : AggState) (c : StreamChunk) :
    aggChunk st c
      = { id := if st.id == "" then c.ID else st.id
          model := if st.model == "" then c.Model else st.model
          content := st.content ++ chunkContentText c
          reasoningContent := st.reasoningContent ++ chunkReasoningText c
          finishReason := lastOr st.finishReason (chunkFinishReasons c)
          usage := match c.Usage with
            | some u => some u
            | none => st.usage
          chunkCount := st.chunkCount + 1 } := by
  unfold aggChunk
  dsimp only
  rw [aggChoice_foldl_spec]
  simp [chunkContentText, chunkReasoningText, chunkFinishReasons]

/-- How the first-non-empty retention composes across one chunk. -/
theorem firstNonEmpty_step (a s : String) (l : List String) :
    (if (if s == "" then a else s) == "" then firstNonEmptyString l
      else (if s == "" then a else s))
      = if s == "" then firstNonEmptyString (a :: l) else s := by
  by_cases hs : s = "" <;> by_cases ha : a = "" <;>
    simp [hs, ha, firstNonEmptyString, List.find?_cons]

/-- The whole scanner loop of `handleNonStreamResponse`, in closed form:
contents and reasoning contents concatenate in arrival order, the first
non-empty id and model are retained, and the last finish reason and usage
seen win. -/
theorem aggLine_foldl_spec (lines : List StreamLine) (st : AggState) :
    lines.foldl aggLine st
      = { id := if st.id == "" then
              firstNonEmptyString ((chunksOfLines lines).map StreamChunk.ID)
            else st.id
          model := if st.model == "" then
              firstNonEmptyString ((chunksOfLines lines).map StreamChunk.Model)
            else st.model
          content := st.content ++ concatList ((chunksOfLines lines).map chunkContentText)
          reasoningContent :=
            st.reasoningContent ++ concatList ((chunksOfLines lines).map chunkReasoningText)
          finishReason := lastOr st.finishReason (finishReasonsOfLines lines)
          usage := lastOr st.usage ((usagesOfLines lines).map some)
          chunkCount := st.chunkCount + (chunksOfLines lines).length } := by
  induction lines generalizing st with
  | nil =>
    obtain ⟨i, mo, co, re, fr, us, cc⟩ := st
    by_cases hid : i = "" <;> by_cases hmo : mo = "" <;>
      simp [chunksOfLines, finishReasonsOfLines, usagesOfLines, concatList, lastOr,
        firstNonEmptyString, String.append_empty, hid, hmo]
  | cons l rest ih =>
    cases l with
    | blank =>
      simpa [chunksOfLines, finishReasonsOfLines, usagesOfLines, aggLine] using ih st
    | doneLine =>
      simpa [chunksOfLines, finishReasonsOfLines, usagesOfLines, aggLine] using ih st
    | malformedLine =>
      simpa [chunksOfLines, finishReasonsOfLines, usagesOfLines, aggLine] using ih st
    | chunkLine c =>
      have h1 : aggLine st (StreamLine.chunkLine c) = aggChunk st c := rfl
      rw [List.foldl_cons, h1, ih (aggChunk st c), aggChunk_spec]
      have hch : chunksOfLines (StreamLine.chunkLine c :: rest) = c :: chunksOfLines rest := by
        simp [chunksOfLines]
      have hfr : finishReasonsOfLines (StreamLine.chunkLine c :: rest)
          = chunkFinishReasons c ++ finishReasonsOfLines rest := by
        simp [finishReasonsOfLines, chunksOfLines]
      rw [hch, hfr]
      simp only [List.map_cons, List.length_cons, AggState.mk.injEq]
      refine ⟨?_, ?_, ?_, ?_, ?_, ?_, ?_⟩
      · exact firstNonEmpty_step c.ID st.id ((chunksOfLines rest).map StreamChunk.ID)
      · exact firstNonEmpty_step c.Model st.model ((chunksOfLines rest).map StreamChunk.Model)
      · simp [concatList, String.append_assoc]
      · simp [concatList, String.append_assoc]
      · rw [lastOr_append]
      · cases hcu : c.Usage with
        | some u =>
          simp [usagesOfLines, chunksOfLines, List.filterMap_cons, hcu, lastOr]
        | none =>
          simp [usagesOfLines, chunksOfLines, List.filterMap_cons, hcu]
      · omega

/-- Claim C3: the non-streaming aggregator's assembled state over any
direct-dialect body equals the specified values: content and reasoning
content are the concatenations, in arrival order, of the chunks' deltas;
id and model are the first non-empty ones seen; the finish reason is the
last non-null one seen (or `""`); the usage is the last non-null one seen
(or absent). -/
theorem nonstream_aggregation_spec (lines : List StreamLine) :
    (aggregateLines lines).content = concatList ((chunksOfLines lines).map chunkContentText)
    ∧ (aggregateLines lines).reasoningContent
        = concatList ((chunksOfLines lines).map chunkReasoningText)
    ∧ (aggregateLines lines).id = firstNonEmptyString ((chunksOfLines lines).map StreamChunk.ID)
    ∧ (aggregateLines lines).model
        = firstNonEmptyString ((chunksOfLines lines).map StreamChunk.Model)
    ∧ (aggregateLines lines).finishReason = lastOr "" (finishReasonsOfLines lines)
    ∧ (aggregateLines lines).usage = lastOr none ((usagesOfLines lines).map some) := by
  have h : aggregateLines lines = _ := aggLine_foldl_spec lines initialAggState
  rw [h]
  simp [initialAggState, String.empty_append]

/-! ### Claim C9 -/

/-- Claim C9: a malformed line anywhere in the body is skipped without
altering the exchange's outcome; a hard read error on the upstream body
aborts the exchange with a 502 error response; without a read error the
handler always answers HTTP 200 with the aggregated response, and in
particular a body yielding empty content still produces a completed
response whose message text is empty. -/
theorem nonstream_error_handling :
    (∀ pre post readErr now,
        handleNonStreamResponse (pre ++ StreamLine.malformedLine :: post) readErr now
          = handleNonStreamResponse (pre ++ post) readErr now)
    ∧ (∀ lines now,
        handleNonStreamResponse lines true now
          = HttpResult.err 502 "Failed to read upstream response" "server_error")
    ∧ (∀ lines now,
        handleNonStreamResponse lines false now
          = HttpResult.ok 200 (buildNonStreamResponse (aggregateLines lines) now))
    ∧ (∀ lines now, (aggregateLines lines).content = "" →
        ∃ resp, handleNonStreamResponse lines false now = HttpResult.ok 200 resp
          ∧ resp.Choices.map (fun ch => ch.Message.Content.Text) = [""]) := by
  refine ⟨?_, fun lines now => rfl, fun lines now => rfl, ?_⟩
  · intro pre post readErr now
    unfold handleNonStreamResponse
    have hagg : aggregateLines (pre ++ StreamLine.malformedLine :: post)
        = aggregateLines (pre ++ post) := by
      unfold aggregateLines
      rw [List.foldl_append, List.foldl_append, List.foldl_cons]
      rfl
    rw [hagg]
  · intro lines now h
    refine ⟨buildNonStreamResponse (aggregateLines lines) now, rfl, ?_⟩
    unfold buildNonStreamResponse buildNonStreamMessage
    split <;> simp [h]

/-- Claim C9, closed instance: the empty body yields a 200 response with
empty message text. -/
theorem nonstream_error_handling_witness :
    ∃ resp, handleNonStreamResponse [] false 0 = HttpResult.ok 200 resp
      ∧ resp.Choices.map (fun ch => ch.Message.Content.Text) = [""] :=
  nonstream_error_handling.2.2.2 [] 0 rfl

/-! ### Claims C10 and C1: session stream translation -/

/-- Blank lines are skipped by the session scanner loop. -/
theorem replicate_blank_foldl (stream : Bool) (k : Nat) (st : SessionState) :
    (List.replicate k SessionLine.blank).foldl (processSessionLine stream) st = st := by
  induction k with
  | zero => rfl
  | succ n ih => simp [List.replicate_succ, List.foldl_cons, processSessionLine, ih]

/-- Event handling never touches the handshake flag. -/
theorem handleSessionEvent_firstChunk (stream : Bool) (st : SessionState)
    (ev : ChatSessionStreamEvent) :
    (handleSessionEvent stream st ev).firstChunk = st.firstChunk := by
  unfold handleSessionEvent
  split_ifs <;> rfl

/-- Once the handshake flag is cleared, object lines are processed as
events. -/
theorem objLines_foldl_eq (stream : Bool) (evs : List ChatSessionStreamEvent)
    (st : SessionState) (h : st.firstChunk = false) :
    (evs.map SessionLine.objLine).foldl (processSessionLine stream) st
      = evs.foldl (handleSessionEvent stream) st := by
  induction evs generalizing st with
  | nil => rfl
  | cons ev rest ih =>
    simp only [List.map_cons, List.foldl_cons]
    have hp : processSessionLine stream st (SessionLine.objLine ev)
        = handleSessionEvent stream st ev := by
      simp [processSessionLine, h]
    rw [hp]
    exact ih _ (by rw [handleSessionEvent_firstChunk, h])

/-- The writes of the event phase are the per-event emissions, in order. -/
theorem outputs_foldl_events (stream : Bool) (evs : List ChatSessionStreamEvent)
    (st : SessionState) :
    (evs.foldl (handleSessionEvent stream) st).outputs
      = st.outputs ++ (evs.map (eventEmits stream)).flatten := by
  induction evs generalizing st with
  | nil => simp
  | cons ev rest ih =>
    simp only [List.foldl_cons, List.map_cons, List.flatten_cons]
    rw [ih]
    have hev : (handleSessionEvent stream st ev).outputs
        = st.outputs ++ eventEmits stream ev := by
      unfold handleSessionEvent eventEmits
      split_ifs <;> simp
    rw [hev, List.append_assoc]

/-- A non-`stop` event emits neither a terminal delta nor a `[DONE]`. -/
theorem eventEmits_no_terminal (ev : ChatSessionStreamEvent) (h : ev.Obj.type ≠ "stop") :
    (eventEmits true ev).filter SSEOut.isFinishChunk = []
    ∧ (eventEmits true ev).filter SSEOut.isDoneMarker = [] := by
  by_cases h1 : ev.Obj.type = "message_start"
  · simp [eventEmits, h1, SSEOut.isFinishChunk, SSEOut.isDoneMarker]
  · by_cases h2 : ev.Obj.type = "message_delta"
    · simp [eventEmits, h1, h2, SSEOut.isFinishChunk, SSEOut.isDoneMarker]
    · simp [eventEmits, h1, h2, h, SSEOut.isFinishChunk, SSEOut.isDoneMarker]

/-- A stretch of `stop`-free events emits neither a terminal delta nor a
`[DONE]`. -/
theorem pre_events_no_terminal (pre : List ChatSessionStreamEvent)
    (hpre : ∀ x ∈ pre, x.Obj.type ≠ "stop") :
    (pre.map (eventEmits true)).flatten.filter SSEOut.isFinishChunk = []
    ∧ (pre.map (eventEmits true)).flatten.filter SSEOut.isDoneMarker = [] := by
  induction pre with
  | nil => simp
  | cons ev rest ih =>
    have h := eventEmits_no_terminal ev (hpre ev (List.mem_cons_self _ _))
    have ihr := ih (fun x hx => hpre x (List.mem_cons_of_mem _ hx))
    simp [List.flatten_cons, List.filter_append, h.1, h.2, ihr.1, ihr.2]

/-- Claim C10: `HandleChatSessionStream` consumes the first non-empty line
with no client output whenever it parses as a JSON object (the
handshake-ack decode ignores unknown fields), so a typed event arriving as
the first non-empty line — `message_delta` included — is dropped: the
remaining lines are processed from a fresh post-handshake state, and a
stream whose only line is such an event yields no output and an empty
accumulation buffer. -/
theorem handshake_consumes_first_json_object (stream : Bool) (k : Nat)
    (ev : ChatSessionStreamEvent) (rest : List SessionLine) :
    runChatSessionStream stream
        (List.replicate k SessionLine.blank ++ SessionLine.objLine ev :: rest)
      = rest.foldl (processSessionLine stream) postHandshakeState
    ∧ (runChatSessionStream stream [SessionLine.objLine ev]).outputs = []
    ∧ (runChatSessionStream stream [SessionLine.objLine ev]).content = "" := by
  refine ⟨?_, rfl, rfl⟩
  unfold runChatSessionStream
  rw [List.foldl_append, replicate_blank_foldl, List.foldl_cons]
  rfl

/-- Claim C1, counterexample: the session event sequence
`[stop, stop]` ends in a `stop` event, yet the translator emits two
terminal deltas and two `[DONE]` markers — the `stop` state is not
exit-only, so the claim fails as stated. -/
theorem session_stop_stream_terminal_cex :
    ¬(((runChatSessionStream true
          (SessionLine.objLine ackEvent
            :: ([stopEvent, stopEvent]).map SessionLine.objLine)).outputs.filter
              SSEOut.isFinishChunk).length = 1
      ∧ ((runChatSessionStream true
          (SessionLine.objLine ackEvent
            :: ([stopEvent, stopEvent]).map SessionLine.objLine)).outputs.filter
              SSEOut.isDoneMarker).length = 1) := by
  decide

/-- Claim C1 (amended): for every session event sequence whose only `stop`
event is the final one, the streaming translator's output is some prefix
followed by exactly one terminal delta with a finish reason and exactly one
`[DONE]` marker, and the prefix contains no terminal delta and no `[DONE]`
— so nothing is emitted after the terminal delta. -/
theorem session_stop_stream_terminal (ack : ChatSessionStreamEvent)
    (pre : List ChatSessionStreamEvent) (ev : ChatSessionStreamEvent)
    (hstop : ev.Obj.type = "stop")
    (hpre : ∀ x ∈ pre, x.Obj.type ≠ "stop") :
    ∃ before,
      (runChatSessionStream true
          (SessionLine.objLine ack :: (pre ++ [ev]).map SessionLine.objLine)).outputs
        = before ++ [SSEOut.finishChunk "stop", SSEOut.doneMarker]
      ∧ before.filter SSEOut.isFinishChunk = []
      ∧ before.filter SSEOut.isDoneMarker = [] := by
  have hrun : runChatSessionStream true
      (SessionLine.objLine ack :: (pre ++ [ev]).map SessionLine.objLine)
      = (pre ++ [ev]).foldl (handleSessionEvent true) postHandshakeState := by
    unfold runChatSessionStream
    rw [List.foldl_cons]
    exact objLines_foldl_eq true (pre ++ [ev]) postHandshakeState rfl
  refine ⟨(pre.map (eventEmits true)).flatten, ?_,
    (pre_events_no_terminal pre hpre).1, (pre_events_no_terminal pre hpre).2⟩
  rw [hrun, outputs_foldl_events]
  have hmap : (pre ++ [ev]).map (eventEmits true)
      = pre.map (eventEmits true) ++ [eventEmits true ev] := by
    simp
  have hev : eventEmits true ev = [SSEOut.finishChunk "stop", SSEOut.doneMarker] := by
    simp [eventEmits, hstop]
  rw [hmap, List.flatten_append, hev]
  simp [postHandshakeState]

/-- Claim C1, closed instance: a delta followed by a single final `stop`. -/
theorem session_stop_stream_terminal_witness :
    ∃ before,
      (runChatSessionStream true
          (SessionLine.objLine ackEvent
            :: ([deltaEvent "Hi", stopEvent]).map SessionLine.objLine)).outputs
        = before ++ [SSEOut.finishChunk "stop", SSEOut.doneMarker]
      ∧ before.filter SSEOut.isFinishChunk = []
      ∧ before.filter SSEOut.isDoneMarker = [] :=
  session_stop_stream_terminal ackEvent [deltaEvent "Hi"] stopEvent rfl (by decide)

/-! ### Claim C5: round-robin path selection -/

theorem getD_false_of_all_false (hs : List Bool) (m : Nat)
    (hall : ∀ b ∈ hs, b = false) : hs.getD m false = false := by
  induction hs generalizing m with
  | nil => rfl
  | cons b rest ih =>
    cases m with
    | zero => exact hall b (List.mem_cons_self _ _)
    | succ n => exact ih n (fun x hx => hall x (List.mem_cons_of_mem _ hx))

theorem getD_true_of_all_true (hs : List Bool) (m : Nat) (hm : m < hs.length)
    (hall : ∀ b ∈ hs, b = true) : hs.getD m false = true := by
  induction hs generalizing m with
  | nil => exact absurd hm (by simp)
  | cons b rest ih =>
    cases m with
    | zero => exact hall b (List.mem_cons_self _ _)
    | succ n =>
      have hn : n < rest.length := by
        simp only [List.length_cons] at hm
        omega
      exact ih n hn (fun x hx => hall x (List.mem_cons_of_mem _ hx))

/-- With every path healthy, the selection loop accepts the very first
candidate: the cursor value modulo the pool size. -/
theorem selectProxy_all_true (hs : List Bool) (s : Nat) (hpos : 0 < hs.length)
    (hall : ∀ b ∈ hs, b = true) : selectProxy hs s = s % hs.length := by
  obtain ⟨m, hm⟩ : ∃ m, hs.length = m + 1 := ⟨hs.length - 1, by omega⟩
  have hfind : ((List.range hs.length).find?
      (fun i => hs.getD ((s + i) % hs.length) false)) = some 0 := by
    rw [hm, List.range_succ_eq_map]
    refine List.find?_cons_of_pos _ ?_
    have hlt : (s + 0) % (m + 1) < hs.length := by
      rw [hm]
      exact Nat.mod_lt _ (Nat.succ_pos m)
    exact getD_true_of_all_true hs ((s + 0) % (m + 1)) hlt hall
  unfold selectProxy
  rw [hfind]
  rfl

/-- With every path unhealthy, the selection loop falls back to the first
path. -/
theorem selectProxy_all_unhealthy (hs : List Bool) (s : Nat)
    (hall : ∀ b ∈ hs, b = false) : selectProxy hs s = 0 := by
  have hfind : ((List.range hs.length).find?
      (fun i => hs.getD ((s + i) % hs.length) false)) = none :=
    List.find?_eq_none.mpr (fun i _ => by
      simpa using getD_false_of_all_false hs ((s + i) % hs.length) hall)
  unfold selectProxy
  rw [hfind]

/-- Claim C5, counterexample: with a pool of six healthy paths and the
shared `uint32` cursor sitting at `2 ^ 32 - 4`, seven (= N + 1) consecutive
selections with no intervening failures hit only paths 0 .. 3 — the
counter wrap at `2 ^ 32` (which 6 does not divide) breaks the round-robin
coverage, so path 4 is never selected. -/
theorem round_robin_selection_cex :
    (∀ b ∈ List.replicate 6 true, b = true)
    ∧ 4 < (List.replicate 6 true).length
    ∧ 4 ∉ selectionList (List.replicate 6 true) (uint32Mod - 4)
        ((List.replicate 6 true).length + 1) := by
  decide

/-- Claim C5 (amended): provided the shared cursor does not wrap modulo
`2 ^ 32` during the selections, N + 1 consecutive selections over a fully
healthy pool of N paths select every path at least once; and when every
path is unhealthy, selection still returns the first path in the pool
(index 0) rather than refusing. -/
theorem round_robin_selection (hs : List Bool) (c0 : Nat) (hpos : 0 < hs.length) :
    ((∀ b ∈ hs, b = true) → c0 + hs.length + 1 < uint32Mod →
      ∀ j < hs.length, j ∈ selectionList hs c0 (hs.length + 1))
    ∧ ((∀ b ∈ hs, b = false) → ∀ s, selectProxy hs s = 0) := by
  constructor
  · intro hall hbound j hj
    unfold selectionList
    rw [List.mem_map]
    have hrlt : (c0 + 1) % hs.length < hs.length := Nat.mod_lt _ hpos
    refine ⟨(j + hs.length - (c0 + 1) % hs.length) % hs.length, ?_, ?_⟩
    · rw [List.mem_range]
      have := Nat.mod_lt (j + hs.length - (c0 + 1) % hs.length) hpos
      omega
    · have hilt : (j + hs.length - (c0 + 1) % hs.length) % hs.length < hs.length :=
        Nat.mod_lt _ hpos
      have hwrap :
          (c0 + (j + hs.length - (c0 + 1) % hs.length) % hs.length + 1) % uint32Mod
            = c0 + (j + hs.length - (c0 + 1) % hs.length) % hs.length + 1 := by
        apply Nat.mod_eq_of_lt
        unfold uint32Mod at hbound ⊢
        omega
      rw [hwrap, selectProxy_all_true hs _ hpos hall]
      have h2 : (c0 + (j + hs.length - (c0 + 1) % hs.length) % hs.length + 1) % hs.length
          = (c0 + 1 + (j + hs.length - (c0 + 1) % hs.length)) % hs.length := by
        have hmod := Nat.ModEq.add_left (c0 + 1)
          (Nat.mod_modEq (j + hs.length - (c0 + 1) % hs.length) hs.length)
        have h1 : c0 + (j + hs.length - (c0 + 1) % hs.length) % hs.length + 1
            = c0 + 1 + (j + hs.length - (c0 + 1) % hs.length) % hs.length := by
          omega
        rw [h1]
        exact hmod
      rw [h2]
      have hq := Nat.div_add_mod (c0 + 1) hs.length
      have h3 : c0 + 1 + (j + hs.length - (c0 + 1) % hs.length)
          = hs.length * ((c0 + 1) / hs.length) + (j + hs.length) := by
        omega
      rw [h3, Nat.mul_add_mod, Nat.add_mod_right]
      exact Nat.mod_eq_of_lt hj
  · intro hall s
    exact selectProxy_all_unhealthy hs s hall

/-- Claim C5, closed instance: a fully healthy pool of two paths is covered
by three consecutive selections, and a fully unhealthy pool selects the
first path. -/
theorem round_robin_selection_witness :
    (0 ∈ selectionList [true, true] 0 ([true, true].length + 1)
      ∧ 1 ∈ selectionList [true, true] 0 ([true, true].length + 1))
    ∧ selectProxy [false, false] 5 = 0 :=
  ⟨⟨(round_robin_selection [true, true] 0 (by decide)).1 (by decide) (by decide) 0 (by decide),
    (round_robin_selection [true, true] 0 (by decide)).1 (by decide) (by decide) 1 (by decide)⟩,
   (round_robin_selection [false, false] 0 (by decide)).2 (by decide) 5⟩

end Theold2api
